import Mathlib

/-
Verification of the radio-button group coordination logic of
`radio_control_value_accessor.ts`: the `RadioControlRegistry`
(add / remove / select with `_isSameGroup`), the accessor operations
(`writeValue`, `fireUncheck`, the `onChange` hook wired by
`registerOnChange`), and the name-resolution algorithm
(`_parsedName` / `_checkName` / `ngOnInit`).

JavaScript reference identity (`===` on objects) is modelled by numeric
ids; JavaScript primitive values and their strict equality are modelled
by the inductive type `JSVal` with structural equality; string-or-undefined
fields are `Option String`, with JS truthiness (`undefined` and `""` are
falsy) made explicit where the source relies on it.
-/

set_option autoImplicit false

namespace Radio

/-- JavaScript primitive values appearing as radio `value`s; strict
equality `===` on primitives is structural equality on this type. -/
inductive JSVal where
  | str (s : String)
  | num (n : Int)
  | bool (b : Bool)
  | null
  | undef
deriving DecidableEq

/-- An `AbstractControl` node of the model tree as `_parsedName` sees it:
whether it has an `at` member (true exactly for `FormArray`) and its
`parent` link (`null` at the root). -/
inductive ACtrl where
  | mk (hasAt : Bool) (parent : Option ACtrl)

/-- Decidable equality on model-tree nodes. -/
def ACtrl.decEq : (a b : ACtrl) → Decidable (a = b)
  | .mk b1 none, .mk b2 none =>
      if h : b1 = b2 then isTrue (h ▸ rfl)
      else isFalse (fun hh => ACtrl.noConfusion hh (fun hb _ => h hb))
  | .mk _ none, .mk _ (some _) =>
      isFalse (fun hh => ACtrl.noConfusion hh (fun _ hp => Option.noConfusion hp))
  | .mk _ (some _), .mk _ none =>
      isFalse (fun hh => ACtrl.noConfusion hh (fun _ hp => Option.noConfusion hp))
  | .mk b1 (some p1), .mk b2 (some p2) =>
      if h : b1 = b2 then
        match ACtrl.decEq p1 p2 with
        | isTrue hp => isTrue (by rw [h, hp])
        | isFalse hp =>
            isFalse (fun hh =>
              ACtrl.noConfusion hh (fun _ hpp => hp (Option.some.inj hpp)))
      else isFalse (fun hh => ACtrl.noConfusion hh (fun hb _ => h hb))

instance : DecidableEq ACtrl := ACtrl.decEq

/-- The source detects a `FormArray` by the presence of its `at` method:
`ancestor && (<FormArray>ancestor).at && true`. -/
def ACtrl.hasAt : ACtrl → Bool
  | .mk b _ => b

def ACtrl.parent : ACtrl → Option ACtrl
  | .mk _ p => p

/-- The `_parent` object of an `NgControl`: compared by reference identity
(modelled by `id`) in `_isSameGroup`, and walked through its `control`
in `_parsedName`. -/
structure NgParent where
  id : Nat
  control : Option ACtrl
deriving DecidableEq

/-- The fields of an `NgControl` the radio accessor reads: the resolved
underlying `control` (possibly `null`), the `_parent` reference, and the
`path` (possibly `null`, with possibly-`null` segments). -/
structure NgCtl where
  control : Option ACtrl
  parentRef : Option NgParent
  path : Option (List (Option String))
deriving DecidableEq

/-- The fields of a `RadioControlValueAccessor` the claims are about.
`id` models the reference identity of the accessor object; `state` is
`_state`; `elChecked` is the `checked` property last written to the bound
element by the renderer. -/
structure Accessor where
  id : Nat
  name : Option String
  formControlName : Option String
  value : JSVal
  state : Bool
  elChecked : Bool
deriving DecidableEq

/-- A registry pairing `[control, accessor]` as pushed by `add`. -/
abbrev Entry := NgCtl × Accessor

/-- Reference identity of an optional `_parent`; as in JS, `null === null`
holds. -/
def parentId (p : Option NgParent) : Option Nat := p.map (·.id)

/-- `writeValue(value)`: `this._state = value === this.value;` then
`renderer.setProperty(el, "checked", this._state)`. -/
def writeValue (a : Accessor) (v : JSVal) : Accessor :=
  let st := decide (v = a.value)
  { a with state := st, elChecked := st }

/-- `fireUncheck(value)` re-dispatches to `writeValue(value)`. -/
def fireUncheck (a : Accessor) (v : JSVal) : Accessor := writeValue a v

/-- `_isSameGroup(controlPair, accessor)`: `false` when the pairing's
underlying control is unresolved, else compares `_parent` by reference
identity and `name` by `===`. -/
def isSameGroup (c : Entry) (ctl : NgCtl) (a : Accessor) : Bool :=
  c.1.control.isSome && decide (parentId c.1.parentRef = parentId ctl.parentRef)
    && decide (c.2.name = a.name)

/-- The body of `select`'s `forEach`: uncheck-notify the pairing when it is
in the same group and its accessor is a different instance. -/
def selStep (ctl : NgCtl) (a : Accessor) (c : Entry) : Entry :=
  if isSameGroup c ctl a && c.2.id != a.id then (c.1, fireUncheck c.2 a.value) else c

/-- `select(accessor)` over the registry's pairing list; `ctl` is the
selecting accessor's `_control`. -/
def select (reg : List Entry) (ctl : NgCtl) (a : Accessor) : List Entry :=
  reg.map (selStep ctl a)

/-- The pairings whose accessor receives `fireUncheck` during `select`, in
scan order. -/
def selectFiltered (reg : List Entry) (ctl : NgCtl) (a : Accessor) : List Entry :=
  reg.filter (fun c => isSameGroup c ctl a && c.2.id != a.id)

/-- Observable calls made while handling one user change event. -/
inductive Event where
  | changeCb (v : JSVal)
  | uncheck (id : Nat) (v : JSVal)
deriving DecidableEq

/-- The uncheck notifications `select` issues: `fireUncheck(accessor.value)`
on each same-group other-instance pairing, in scan order. -/
def selectTrace (reg : List Entry) (ctl : NgCtl) (a : Accessor) : List Event :=
  (selectFiltered reg ctl a).map (fun c => Event.uncheck c.2.id a.value)

/-- The `onChange` hook as wired by `registerOnChange`: first `fn(this.value)`,
then `this._registry.select(this)`. -/
def onChangeTrace (reg : List Entry) (ctl : NgCtl) (a : Accessor) : List Event :=
  Event.changeCb a.value :: selectTrace reg ctl a

/-- `add(control, accessor)` pushes the pairing. -/
def regAdd (reg : List Entry) (e : Entry) : List Entry := reg ++ [e]

/-- Remove the first pairing (from the front) whose accessor has the given
identity; helper for the source's backwards scan. -/
def removeFirst : List Entry → Nat → List Entry
  | [], _ => []
  | e :: rest, aid => if e.2.id = aid then rest else e :: removeFirst rest aid

/-- `remove(accessor)`: scan from the end toward the start, splice out the
first pairing whose accessor `===` the argument, then return. -/
def regRemove (reg : List Entry) (aid : Nat) : List Entry :=
  (removeFirst reg.reverse aid).reverse

/-- `ngOnDestroy` detaches: `this._registry.remove(this)`. -/
def ngOnDestroy (reg : List Entry) (a : Accessor) : List Entry := regRemove reg a.id

/-- An add/remove operation performed on the registry. -/
inductive RegOp where
  | add (c : NgCtl) (a : Accessor)
  | remove (aid : Nat)
deriving DecidableEq

/-- Run a sequence of add/remove operations on a registry. -/
def runOps : List RegOp → List Entry → List Entry
  | [], reg => reg
  | RegOp.add c a :: rest, reg => runOps rest (regAdd reg (c, a))
  | RegOp.remove aid :: rest, reg => runOps rest (regRemove reg aid)

/-- A sequence is valid when it never adds an accessor instance that is
currently registered (the documented invariant: at most one entry per
live accessor, the caller adds exactly once per attach). -/
def ValidOps : List RegOp → List Entry → Bool
  | [], _ => true
  | RegOp.add c a :: rest, reg =>
      decide (a.id ∉ reg.map (fun e => e.2.id)) && ValidOps rest (regAdd reg (c, a))
  | RegOp.remove aid :: rest, reg => ValidOps rest (regRemove reg aid)

/-- `while (ancestor && ancestor.parent) { push(ancestor); ancestor = parent }`
starting from a non-null ancestor. -/
def collectAncC : ACtrl → List ACtrl
  | ACtrl.mk _ none => []
  | ACtrl.mk b (some p) => ACtrl.mk b (some p) :: collectAncC p

/-- The same loop when the starting `ancestor` may be `null`. -/
def collectAnc : Option ACtrl → List ACtrl
  | none => []
  | some c => collectAncC c

/-- JS template-literal rendering of a possibly-null path segment. -/
def segRender : Option String → String
  | none => "null"
  | some s => s

/-- The `path[path.length - 1] == null` check and fill of `_parsedName`. -/
def fillLastIfNull (path : List (Option String)) (fcn : Option String) :
    List (Option String) :=
  match path.getLast? with
  | some none => path.dropLast ++ [fcn]
  | _ => path

/-- Pair `path[i]` with `ancestors[i]` (an out-of-range index gives a falsy
`isArray`), recording `ancestor && (<FormArray>ancestor).at && true`. -/
def pairSegs : List (Option String) → List ACtrl → List (Option String × Bool)
  | [], _ => []
  | n :: rest, [] => (n, false) :: pairSegs rest []
  | n :: rest, anc :: arest => (n, anc.hasAt) :: pairSegs rest arest

/-- The accumulator loop of `_parsedName` building the name string: when
`isPreviousAncestorArray` the segment is appended as `[segment]`, else as
`.segment` with the dot omitted while the accumulator is still empty. -/
def buildNameGo : String → Bool → List (Option String × Bool) → String
  | acc, _, [] => acc
  | acc, true, (n, ia) :: rest =>
      buildNameGo (acc ++ "[" ++ segRender n ++ "]") ia rest
  | acc, false, (n, ia) :: rest =>
      buildNameGo (acc ++ (if acc = "" then "" else ".") ++ segRender n) ia rest

/-- `parsedName` built left to right starting from the empty string with
`isPreviousAncestorArray` initially false. -/
def buildName (l : List (Option String × Bool)) : String := buildNameGo "" false l

/-- The `_parsedName` getter: returns the computed name and the control with
its (possibly filled-in) `path`, mirroring the getter's mutation of
`path[path.length - 1]`. -/
def parsedNameM (ctl : NgCtl) (fcn : Option String) : Option String × NgCtl :=
  match ctl.parentRef, ctl.path with
  | some par, some path =>
      if path.length = 0 then (fcn, ctl)
      else
        let path2 := fillLastIfNull path fcn
        let ancs := (collectAnc par.control).reverse
        (some (buildName (pairSegs path2 ancs)), { ctl with path := some path2 })
  | _, _ => (fcn, ctl)

/-- JS truthiness of a string-or-undefined field (`undefined` and `""` are
falsy). -/
def truthyS : Option String → Bool
  | none => false
  | some s => !(s == "")

/-- JS template-literal rendering of a string-or-undefined value. -/
def optStr : Option String → String
  | none => "undefined"
  | some s => s

/-- The error thrown by `_throwNameError(this.name, this._parsedName)`,
carrying the two names interpolated into its message. -/
structure NameErr where
  declared : String
  parsed : String
deriving DecidableEq

/-- `_checkName()` together with the path mutation performed by each
evaluation of the `_parsedName` getter; returns the possibly updated
`name` and control, or the thrown error.  The source's two sequential
`if` statements are written as disjoint branches: when the first guard
holds, `name` is truthy, so the source's second `if` cannot fire. -/
def checkName (name fcn : Option String) (c0 : NgCtl) :
    Except NameErr (Option String × NgCtl) :=
  if truthyS name && truthyS fcn then
    if name ≠ (parsedNameM c0 fcn).1 then
      Except.error ⟨optStr name,
        optStr (parsedNameM (parsedNameM c0 fcn).2 fcn).1⟩
    else
      Except.ok (name, (parsedNameM c0 fcn).2)
  else if !truthyS name && truthyS fcn then
    Except.ok ((parsedNameM c0 fcn).1, (parsedNameM c0 fcn).2)
  else
    Except.ok (name, c0)

/-- `ngOnInit`: resolve `_control`, run `_checkName()`, then
`this._registry.add(this._control, this)`. -/
def ngOnInit (reg : List Entry) (ctl : NgCtl) (a : Accessor) :
    Except NameErr (List Entry × NgCtl × Accessor) :=
  match checkName a.name a.formControlName ctl with
  | Except.error e => Except.error e
  | Except.ok (n1, c1) =>
      let a1 := { a with name := n1 }
      Except.ok (regAdd reg (c1, a1), c1, a1)

/-- The registry as the caller sees it after `ngOnInit` (unchanged when the
name check throws). -/
def ngOnInitReg (reg : List Entry) (ctl : NgCtl) (a : Accessor) : List Entry :=
  match ngOnInit reg ctl a with
  | Except.error _ => reg
  | Except.ok r => r.1

/-- Modelled from the spec wording, for comparison with `buildNameGo`: each
subsequent segment is emitted as `.segment`, or as `[segment]` with no
preceding dot when the previous segment's ancestor was array-like. -/
def renderSpecGo : List (Option String × Bool) → Bool → String
  | [], _ => ""
  | (n, ia) :: rest, true => "[" ++ segRender n ++ "]" ++ renderSpecGo rest ia
  | (n, ia) :: rest, false => "." ++ segRender n ++ renderSpecGo rest ia

/-- Modelled from the spec wording: the first segment is emitted bare, the
rest by `renderSpecGo`. -/
def renderSpec : List (Option String × Bool) → String
  | [] => ""
  | (n, ia) :: rest => segRender n ++ renderSpecGo rest ia

/-- Membership of the group of `(ctl, a)` as the spec derives it: same
`_parent` reference and equal declared `name`. -/
def groupMemberB (c : Entry) (ctl : NgCtl) (a : Accessor) : Bool :=
  decide (parentId c.1.parentRef = parentId ctl.parentRef) && decide (c.2.name = a.name)

/-- Number of pairings of the group of `(ctl, a)` whose accessor is in
checked visual state. -/
def checkedInGroup (reg : List Entry) (ctl : NgCtl) (a : Accessor) : Nat :=
  (reg.filter (fun c => groupMemberB c ctl a && c.2.state)).length

/-- Decidable equality of attach results. -/
instance instDecEqExceptRadio {ε α : Type} [DecidableEq ε] [DecidableEq α] :
    DecidableEq (Except ε α) := fun a b =>
  match a, b with
  | Except.error e1, Except.error e2 =>
      if h : e1 = e2 then isTrue (by rw [h])
      else isFalse (fun hh => h (Except.error.inj hh))
  | Except.ok v1, Except.ok v2 =>
      if h : v1 = v2 then isTrue (by rw [h])
      else isFalse (fun hh => h (Except.ok.inj hh))
  | Except.error _, Except.ok _ => isFalse (fun hh => Except.noConfusion hh)
  | Except.ok _, Except.error _ => isFalse (fun hh => Except.noConfusion hh)

/-- A string of length zero is the empty string. -/
theorem str_eq_empty_of_len (s : String) (h : s.length = 0) : s = "" := by
  apply String.ext
  cases s with
  | mk data =>
      rw [String.length_mk] at h
      exact List.length_eq_zero.mp h

/-- Appending to a nonempty string keeps it nonempty (measured by length). -/
theorem str_append_len_pos (s t : String) (h : 0 < s.length) : 0 < (s ++ t).length := by
  rw [String.length_append]
  exact Nat.lt_of_lt_of_le h (Nat.le_add_right _ _)

/-- A string of positive length is not the empty string. -/
theorem str_ne_empty_of_pos (s : String) (h : 0 < s.length) : s ≠ "" := by
  intro hh
  rw [hh, String.length_empty] at h
  exact Nat.lt_irrefl 0 h

/-- `selStep` never changes which control the pairing holds. -/
theorem selStep_fst (ctl : NgCtl) (a : Accessor) (c : Entry) :
    (selStep ctl a c).1 = c.1 := by
  unfold selStep
  split <;> rfl

/-- `selStep` never changes the identity of the pairing's accessor. -/
theorem selStep_id (ctl : NgCtl) (a : Accessor) (c : Entry) :
    (selStep ctl a c).2.id = c.2.id := by
  unfold selStep
  split <;> rfl

/-- `selStep` never changes the declared name of the pairing's accessor. -/
theorem selStep_name (ctl : NgCtl) (a : Accessor) (c : Entry) :
    (selStep ctl a c).2.name = c.2.name := by
  unfold selStep
  split <;> rfl

/-- `selStep` preserves group membership. -/
theorem selStep_group (ctl : NgCtl) (a : Accessor) (c : Entry) :
    groupMemberB (selStep ctl a c) ctl a = groupMemberB c ctl a := by
  unfold selStep
  split <;> rfl

/-- A projection unchanged by `selStep` is unchanged by `select`. -/
theorem select_proj {β : Type} (f : Entry → β) (ctl : NgCtl) (a : Accessor)
    (hf : ∀ c : Entry, f (selStep ctl a c) = f c) :
    ∀ reg : List Entry, (select reg ctl a).map f = reg.map f
  | [] => rfl
  | e :: rest => by
      simp only [select, List.map_cons]
      rw [hf e]
      exact congrArg (List.cons (f e)) (select_proj f ctl a hf rest)

/-- Pointwise equal predicates filter alike. -/
theorem flt_congr {α : Type} (p q : α → Bool) :
    ∀ l : List α, (∀ x ∈ l, p x = q x) → l.filter p = l.filter q
  | [], _ => rfl
  | x :: rest, h => by
      have hx : p x = q x := h x (List.mem_cons_self x rest)
      have hr := flt_congr p q rest (fun y hy => h y (List.mem_cons_of_mem x hy))
      rw [List.filter_cons, List.filter_cons, hx, hr]

/-- An unresolved control makes `_isSameGroup` false. -/
theorem isSameGroup_none (c : Entry) (ctl : NgCtl) (a : Accessor)
    (h : c.1.control = none) : isSameGroup c ctl a = false := by
  unfold isSameGroup
  rw [h]
  rfl

/-- A pairing satisfying the group test with a resolved control passes
`_isSameGroup`. -/
theorem isSameGroup_of_group (c : Entry) (ctl : NgCtl) (a : Accessor)
    (hres : c.1.control.isSome = true) (hg : groupMemberB c ctl a = true) :
    isSameGroup c ctl a = true := by
  unfold groupMemberB at hg
  unfold isSameGroup
  rw [hres, (Bool.and_eq_true _ _).mp hg |>.1, (Bool.and_eq_true _ _).mp hg |>.2]
  rfl

/-- C5 — `writeValue(v)` compares `v` to the declared `value` with strict
equality, stores the boolean in `_state`, writes the same boolean to the
element's `checked` property, and changes nothing else (it is a total
function, so it never fails, mismatched types included). -/
theorem c5_writeValue_strict_equality (a : Accessor) (v : JSVal) :
    ((writeValue a v).state = true ↔ v = a.value)
      ∧ (writeValue a v).elChecked = (writeValue a v).state
      ∧ (writeValue a v).id = a.id
      ∧ (writeValue a v).name = a.name
      ∧ (writeValue a v).value = a.value := by
  refine ⟨?_, rfl, rfl, rfl, rfl⟩
  simp [writeValue]

/-- C6 — the `onChange` hook wired by `registerOnChange` invokes the change
callback with the accessor's declared value at position 0 of the event
trace, and every sibling `fireUncheck` notification occurs strictly later
and carries that same value. -/
theorem c6_change_callback_before_unchecks (reg : List Entry) (ctl : NgCtl)
    (a : Accessor) :
    (onChangeTrace reg ctl a)[0]? = some (Event.changeCb a.value)
      ∧ ∀ (k i : Nat) (v : JSVal),
          (onChangeTrace reg ctl a)[k]? = some (Event.uncheck i v) →
            0 < k ∧ v = a.value := by
  constructor
  · simp [onChangeTrace]
  · intro k i v hk
    cases k with
    | zero =>
        simp only [onChangeTrace, List.getElem?_cons_zero, Option.some.injEq] at hk
        exact absurd hk (fun hh => Event.noConfusion hh)
    | succ k2 =>
        refine ⟨Nat.succ_pos _, ?_⟩
        simp only [onChangeTrace, List.getElem?_cons_succ, selectTrace,
          List.getElem?_map] at hk
        cases h2 : (selectFiltered reg ctl a)[k2]? with
        | none => rw [h2] at hk; exact Option.noConfusion hk
        | some c =>
            rw [h2] at hk
            simp only [Option.map_some', Option.some.injEq] at hk
            cases hk
            rfl

/-- C10 — `select(a)` never notifies a pairing whose underlying control is
unresolved: such a pairing is not among the notified ones, and its entry
is left completely unchanged by `select`, whatever its parent reference
and declared name are. -/
theorem c10_unresolved_control_never_notified (reg : List Entry) (ctl : NgCtl)
    (a : Accessor) (c : Entry) (hc : c.1.control = none) :
    c ∉ selectFiltered reg ctl a
      ∧ ∀ k : Nat, reg[k]? = some c → (select reg ctl a)[k]? = some c := by
  have hstep : selStep ctl a c = c := by
    unfold selStep
    rw [isSameGroup_none c ctl a hc]
    rfl
  constructor
  · intro hmem
    have h2 := (List.mem_filter.mp hmem).2
    rw [isSameGroup_none c ctl a hc] at h2
    exact Bool.noConfusion h2
  · intro k hk
    unfold select
    rw [List.getElem?_map, hk, Option.map_some', hstep]

/-- Removing from a registry that holds a member with identity `aid` exactly
once removes exactly that member: the remaining list, filtered on the
other identities, is the whole remaining list. -/
theorem filter_ne_len (a : Accessor) (ctl : NgCtl) :
    ∀ reg : List Entry, (ctl, a) ∈ reg → (reg.map (fun c => c.2.id)).Nodup →
      (reg.filter (fun c => c.2.id != a.id)).length + 1 = reg.length
  | [], hmem, _ => absurd hmem (List.not_mem_nil _)
  | e :: rest, hmem, hnd => by
      rw [List.map_cons, List.nodup_cons] at hnd
      rw [List.filter_cons]
      rcases List.mem_cons.mp hmem with he | hrest
      · subst he
        have hnotin : a.id ∉ rest.map (fun c => c.2.id) := hnd.1
        have hfeq : rest.filter (fun c => c.2.id != a.id) = rest :=
          List.filter_eq_self.mpr (fun c hc =>
            bne_iff_ne.mpr (fun heq =>
              hnotin (heq ▸ List.mem_map_of_mem (fun c => c.2.id) hc)))
        simp [bne_self_eq_false, hfeq]
      · have hne : e.2.id ≠ a.id := fun heq =>
          hnd.1 (heq ▸ List.mem_map_of_mem (fun c => c.2.id) hrest)
        rw [if_pos (bne_iff_ne.mpr hne)]
        have ih := filter_ne_len a ctl rest hrest hnd.2
        simp only [List.length_cons]
        omega

/-- C1 (amended: every group member must have a resolved underlying
control) — when the whole registry is one group of accessors sharing the
same `_parent` reference and declared name, each with a resolved control,
`select(a)` fires `fireUncheck(a.value)` on exactly the other N−1 members
and never on `a` itself; in particular a group of one gets no
notifications and nothing fails. -/
theorem c1_select_unchecks_exactly_others (reg : List Entry) (ctl : NgCtl)
    (a : Accessor) (hmem : (ctl, a) ∈ reg)
    (hnd : (reg.map (fun c => c.2.id)).Nodup)
    (hres : ∀ c ∈ reg, c.1.control.isSome = true)
    (hpar : ∀ c ∈ reg, parentId c.1.parentRef = parentId ctl.parentRef)
    (hname : ∀ c ∈ reg, c.2.name = a.name) :
    selectTrace reg ctl a
        = (reg.filter (fun c => c.2.id != a.id)).map
            (fun c => Event.uncheck c.2.id a.value)
      ∧ (selectTrace reg ctl a).length + 1 = reg.length
      ∧ ∀ v : JSVal, Event.uncheck a.id v ∉ selectTrace reg ctl a := by
  have hflt : selectFiltered reg ctl a = reg.filter (fun c => c.2.id != a.id) := by
    unfold selectFiltered
    apply flt_congr
    intro c hc
    have hg : groupMemberB c ctl a = true := by
      unfold groupMemberB
      rw [decide_eq_true (hpar c hc), decide_eq_true (hname c hc)]
      rfl
    rw [isSameGroup_of_group c ctl a (hres c hc) hg, Bool.true_and]
  refine ⟨?_, ?_, ?_⟩
  · unfold selectTrace
    rw [hflt]
  · unfold selectTrace
    rw [hflt, List.length_map]
    exact filter_ne_len a ctl reg hmem hnd
  · intro v hv
    unfold selectTrace at hv
    rcases List.mem_map.mp hv with ⟨c, hcmem, hceq⟩
    have hid : c.2.id = a.id := by injection hceq
    have hbne := (List.mem_filter.mp hcmem).2
    rw [Bool.and_eq_true, bne_iff_ne] at hbne
    exact hbne.2 hid

/-- When every element passing the filter carries the same identity `k` and
identities are pairwise distinct, at most one element passes. -/
theorem flt_len_le_one (q : Entry → Bool) (k : Nat) :
    ∀ l : List Entry, (l.map (fun c => c.2.id)).Nodup →
      (∀ c ∈ l, q c = true → c.2.id = k) → (l.filter q).length ≤ 1
  | [], _, _ => by simp
  | e :: rest, hnd, hq => by
      rw [List.map_cons, List.nodup_cons] at hnd
      rw [List.filter_cons]
      cases hqe : q e with
      | false =>
          simp only [Bool.false_eq_true, if_false]
          exact flt_len_le_one q k rest hnd.2
            (fun c hc => hq c (List.mem_cons_of_mem e hc))
      | true =>
          rw [if_pos rfl]
          have hek : e.2.id = k := hq e (List.mem_cons_self e rest) hqe
          have hempty : rest.filter q = [] := by
            cases hfe : rest.filter q with
            | nil => rfl
            | cons c cs =>
                have hcmem : c ∈ rest.filter q := by
                  rw [hfe]
                  exact List.mem_cons_self c cs
                have hc := List.mem_filter.mp hcmem
                have hck : c.2.id = k :=
                  hq c (List.mem_cons_of_mem e hc.1) hc.2
                exact absurd
                  (by
                    rw [hek, ← hck]
                    exact List.mem_map_of_mem (fun c => c.2.id) hc.1)
                  hnd.1
          rw [hempty]
          simp

/-- C3 (amended: group members must have resolved controls and declared
values distinct from the selector's) — immediately after `select(a)`
completes, at most one accessor of the group of `a` is in checked visual
state. -/
theorem c3_at_most_one_checked_after_select (reg : List Entry) (ctl : NgCtl)
    (a : Accessor) (hnd : (reg.map (fun c => c.2.id)).Nodup)
    (hres : ∀ c ∈ reg, groupMemberB c ctl a = true → c.1.control.isSome = true)
    (hval : ∀ c ∈ reg, groupMemberB c ctl a = true → c.2.id ≠ a.id →
      c.2.value ≠ a.value) :
    checkedInGroup (select reg ctl a) ctl a ≤ 1 := by
  unfold checkedInGroup
  apply flt_len_le_one _ a.id
  · rw [select_proj (fun c => c.2.id) ctl a (selStep_id ctl a) reg]
    exact hnd
  · intro c2 hc2 hq
    unfold select at hc2
    rcases List.mem_map.mp hc2 with ⟨c, hcmem, hceq⟩
    subst hceq
    rw [Bool.and_eq_true, selStep_group] at hq
    have hg : groupMemberB c ctl a = true := hq.1
    cases hcond : (isSameGroup c ctl a && c.2.id != a.id) with
    | true =>
        exfalso
        have hstep : selStep ctl a c = (c.1, fireUncheck c.2 a.value) := by
          unfold selStep
          rw [hcond]
          rfl
        have hstate := hq.2
        rw [hstep] at hstate
        have hveq : a.value = c.2.value := by
          have : decide (a.value = c.2.value) = true := hstate
          exact of_decide_eq_true this
        have hne : c.2.id ≠ a.id := by
          rw [Bool.and_eq_true, bne_iff_ne] at hcond
          exact hcond.2
        exact hval c hcmem hg hne hveq.symm
    | false =>
        rw [selStep_id]
        rw [isSameGroup_of_group c ctl a (hres c hcmem hg) hg, Bool.true_and] at hcond
        exact bne_eq_false_iff_eq.mp hcond

/-- `removeFirst` yields a sublist. -/
theorem removeFirst_sublist : ∀ (l : List Entry) (aid : Nat),
    (removeFirst l aid).Sublist l
  | [], _ => List.Sublist.refl _
  | e :: rest, aid => by
      unfold removeFirst
      split
      · exact List.sublist_cons_self e rest
      · exact List.Sublist.cons₂ e (removeFirst_sublist rest aid)

/-- `remove` yields a sublist of the registry. -/
theorem regRemove_sublist (reg : List Entry) (aid : Nat) :
    (regRemove reg aid).Sublist reg := by
  unfold regRemove
  have h := (removeFirst_sublist reg.reverse aid).reverse
  rwa [List.reverse_reverse] at h

/-- `removeFirst` is the identity when nothing matches. -/
theorem removeFirst_no_match (aid : Nat) :
    ∀ l : List Entry, (∀ c ∈ l, c.2.id ≠ aid) → removeFirst l aid = l
  | [], _ => rfl
  | e :: rest, h => by
      unfold removeFirst
      rw [if_neg (h e (List.mem_cons_self e rest)),
        removeFirst_no_match aid rest (fun c hc => h c (List.mem_cons_of_mem e hc))]

/-- `remove(accessor)` with no matching pairing is a silent no-op. -/
theorem regRemove_no_match (reg : List Entry) (aid : Nat)
    (h : ∀ c ∈ reg, c.2.id ≠ aid) : regRemove reg aid = reg := by
  unfold regRemove
  rw [removeFirst_no_match aid reg.reverse (fun c hc => h c (List.mem_reverse.mp hc)),
    List.reverse_reverse]

/-- With pairwise distinct identities, `removeFirst` leaves no match behind. -/
theorem removeFirst_clears (aid : Nat) :
    ∀ l : List Entry, (l.map (fun c => c.2.id)).Nodup →
      ∀ c ∈ removeFirst l aid, c.2.id ≠ aid
  | [], _, c, hc => absurd hc (List.not_mem_nil c)
  | e :: rest, hnd, c, hc => by
      rw [List.map_cons, List.nodup_cons] at hnd
      unfold removeFirst at hc
      by_cases he : e.2.id = aid
      · rw [if_pos he] at hc
        intro hcaid
        exact hnd.1 (by
          rw [he, ← hcaid]
          exact List.mem_map_of_mem (fun c => c.2.id) hc)
      · rw [if_neg he] at hc
        rcases List.mem_cons.mp hc with rfl | hc2
        · exact he
        · exact removeFirst_clears aid rest hnd.2 c hc2

/-- With pairwise distinct identities, `remove(accessor)` leaves no pairing
of that accessor behind. -/
theorem regRemove_clears (reg : List Entry) (aid : Nat)
    (hnd : (reg.map (fun c => c.2.id)).Nodup) :
    ∀ c ∈ regRemove reg aid, c.2.id ≠ aid := by
  intro c hc
  unfold regRemove at hc
  have hrevnd : (reg.reverse.map (fun c => c.2.id)).Nodup := by
    rw [List.map_reverse]
    exact List.nodup_reverse.mpr hnd
  exact removeFirst_clears aid reg.reverse hrevnd c (List.mem_reverse.mp hc)

/-- Valid add/remove sequences preserve distinctness of the registered
accessor identities. -/
theorem runOps_nodup : ∀ (ops : List RegOp) (reg : List Entry),
    (reg.map (fun c => c.2.id)).Nodup → ValidOps ops reg = true →
    ((runOps ops reg).map (fun c => c.2.id)).Nodup
  | [], _, hnd, _ => hnd
  | RegOp.add c a :: rest, reg, hnd, hv => by
      unfold ValidOps at hv
      rw [Bool.and_eq_true] at hv
      have hfresh : a.id ∉ reg.map (fun e => e.2.id) := of_decide_eq_true hv.1
      apply runOps_nodup rest _ _ hv.2
      unfold regAdd
      rw [List.map_append]
      refine List.Nodup.append hnd (List.nodup_singleton _) ?_
      intro x hx hy
      have hxa : x = a.id := by simpa using hy
      exact hfresh (hxa ▸ hx)
  | RegOp.remove aid :: rest, reg, hnd, hv => by
      unfold ValidOps at hv
      apply runOps_nodup rest _ _ hv
      exact List.Nodup.sublist ((regRemove_sublist reg aid).map (fun c => c.2.id)) hnd

/-- C7 (amended: sequences never add an accessor instance that is currently
registered, per the documented at-most-one-entry invariant) — after any
`remove(accessor)` the registry holds no pairing whose accessor is that
instance, a second `remove` of it is a no-op, and `remove` of an accessor
with no matching pairing is always a silent no-op. -/
theorem c7_remove_clears_then_noop (ops : List RegOp) (aid : Nat)
    (hv : ValidOps ops [] = true) :
    (∀ c ∈ regRemove (runOps ops []) aid, c.2.id ≠ aid)
      ∧ regRemove (regRemove (runOps ops []) aid) aid
          = regRemove (runOps ops []) aid
      ∧ ∀ (reg : List Entry) (k : Nat), (∀ c ∈ reg, c.2.id ≠ k) →
          regRemove reg k = reg := by
  have hnd := runOps_nodup ops [] (by simp) hv
  exact ⟨regRemove_clears _ aid hnd,
    regRemove_no_match _ aid (regRemove_clears _ aid hnd),
    fun reg k h => regRemove_no_match reg k h⟩

/-- Once the accumulator is nonempty, the loop of `_parsedName` emits every
remaining segment exactly as the spec's rendering prescribes. -/
theorem buildNameGo_spec : ∀ (l : List (Option String × Bool)) (acc : String)
    (prev : Bool), 0 < acc.length → buildNameGo acc prev l = acc ++ renderSpecGo l prev
  | [], acc, prev, _ => by
      cases prev <;> simp [buildNameGo, renderSpecGo, String.append_empty]
  | (n, ia) :: rest, acc, true, hpos => by
      show buildNameGo (acc ++ "[" ++ segRender n ++ "]") ia rest = _
      rw [buildNameGo_spec rest _ ia
        (str_append_len_pos _ _ (str_append_len_pos _ _ (str_append_len_pos _ _ hpos)))]
      show _ = acc ++ ("[" ++ segRender n ++ "]" ++ renderSpecGo rest ia)
      simp [String.append_assoc]
  | (n, ia) :: rest, acc, false, hpos => by
      show buildNameGo (acc ++ (if acc = "" then "" else ".") ++ segRender n) ia rest = _
      rw [if_neg (str_ne_empty_of_pos acc hpos)]
      rw [buildNameGo_spec rest _ ia
        (str_append_len_pos _ _ (str_append_len_pos _ _ hpos))]
      show _ = acc ++ ("." ++ segRender n ++ renderSpecGo rest ia)
      simp [String.append_assoc]

/-- The ancestor chain of the claim's example: model root → array
`addresses` → element group. -/
def exRootC2 : ACtrl := ACtrl.mk false none

def exArrC2 : ACtrl := ACtrl.mk true (some exRootC2)

def exGrpC2 : ACtrl := ACtrl.mk false (some exArrC2)

/-- The concrete control of the claim's example, with model path
`["addresses", "0", "street"]` and `_parent.control` the element group. -/
def exCtlC2 : NgCtl :=
  { control := some (ACtrl.mk false none)
  , parentRef := some { id := 7, control := some exGrpC2 }
  , path := some [some "addresses", some "0", some "street"] }

/-- C2 (amended: the first segment must be a nonempty string — with an
empty first segment the code omits the dot before the next segment) —
the computed path name is built left to right, first segment bare, each
later segment as `.segment`, except `[segment]` (no dot) when the
previous segment's paired ancestor is array-like; on the example tree
root → array "addresses" → element group → control the computed name is
`"addresses[0].street"`. -/
theorem c2_parsed_name_rendering :
    (∀ (n : String) (ia : Bool) (rest : List (Option String × Bool)), n ≠ "" →
      buildName ((some n, ia) :: rest) = renderSpec ((some n, ia) :: rest))
      ∧ (parsedNameM exCtlC2 (some "street")).1 = some "addresses[0].street" := by
  constructor
  · intro n ia rest hn
    unfold buildName renderSpec
    show buildNameGo ("" ++ (if ("" : String) = "" then "" else ".") ++ segRender (some n))
        ia rest = segRender (some n) ++ renderSpecGo rest ia
    rw [if_pos rfl, String.append_empty, String.empty_append]
    exact buildNameGo_spec rest (segRender (some n)) ia
      (Nat.pos_of_ne_zero (fun h0 => hn (str_eq_empty_of_len n h0)))
  · decide

/-- C4 (amended: the validation fires only when `formControlName` is also
set — with `formControlName` unset no check happens even if a computed
path name exists) — when the explicit `name` and `formControlName` are
both set and `name` differs from the computed path name, attach throws
the name-conflict error and the accessor is not added: the registry is
unchanged. -/
theorem c4_name_conflict_aborts_attach (reg : List Entry) (ctl : NgCtl)
    (a : Accessor) (hn : truthyS a.name = true)
    (hf : truthyS a.formControlName = true)
    (hne : a.name ≠ (parsedNameM ctl a.formControlName).1) :
    (∃ e : NameErr, ngOnInit reg ctl a = Except.error e)
      ∧ ngOnInitReg reg ctl a = reg := by
  have hck : checkName a.name a.formControlName ctl
      = Except.error ⟨optStr a.name,
          optStr (parsedNameM (parsedNameM ctl a.formControlName).2
            a.formControlName).1⟩ := by
    unfold checkName
    rw [hn, hf, if_pos (show (true && true) = true from rfl), if_pos hne]
  have hinit : ngOnInit reg ctl a = Except.error
      ⟨optStr a.name, optStr (parsedNameM (parsedNameM ctl a.formControlName).2
        a.formControlName).1⟩ := by
    unfold ngOnInit
    rw [hck]
  refine ⟨⟨_, hinit⟩, ?_⟩
  unfold ngOnInitReg
  rw [hinit]

/-- C8 (amended: a final segment that is already set is left unchanged, so
it ends up equal to `formControlName` only if it already was) — for a
control with a parent and a non-empty path, name resolution fills in an
unset final path segment with `formControlName` and leaves a set final
segment untouched. -/
theorem c8_last_segment_fill (ctlc : Option ACtrl) (par : NgParent)
    (path : List (Option String)) (fcn : Option String) (hne : path ≠ []) :
    (path.getLast? = some none →
        ((parsedNameM (NgCtl.mk ctlc (some par) (some path)) fcn).2).path
            = some (path.dropLast ++ [fcn])
          ∧ (path.dropLast ++ [fcn]).getLast? = some fcn)
      ∧ ∀ s : String, path.getLast? = some (some s) →
          ((parsedNameM (NgCtl.mk ctlc (some par) (some path)) fcn).2).path
            = some path := by
  have hlen : ¬ path.length = 0 := fun h => hne (List.length_eq_zero.mp h)
  have hred : parsedNameM (NgCtl.mk ctlc (some par) (some path)) fcn
      = if path.length = 0 then (fcn, NgCtl.mk ctlc (some par) (some path))
        else
          (some (buildName (pairSegs (fillLastIfNull path fcn)
              ((collectAnc par.control).reverse))),
            NgCtl.mk ctlc (some par) (some (fillLastIfNull path fcn))) := rfl
  rw [hred, if_neg hlen]
  constructor
  · intro hlast
    have hfill : fillLastIfNull path fcn = path.dropLast ++ [fcn] := by
      unfold fillLastIfNull
      rw [hlast]
    rw [hfill]
    exact ⟨rfl, List.getLast?_concat _⟩
  · intro s hlast
    have hfill : fillLastIfNull path fcn = path := by
      unfold fillLastIfNull
      rw [hlast]
    rw [hfill]

/-- C9 — when `formControlName` is unset (absent or empty, hence falsy),
`ngOnInit` never throws, leaves the `name` attribute and the control
untouched, and always registers the accessor, whatever the explicit
`name` is. -/
theorem c9_unset_fcn_attach_always_registers (reg : List Entry) (ctl : NgCtl)
    (a : Accessor) (h : truthyS a.formControlName = false) :
    ngOnInit reg ctl a = Except.ok (regAdd reg (ctl, a), ctl, a) := by
  have hck : checkName a.name a.formControlName ctl = Except.ok (a.name, ctl) := by
    unfold checkName
    rw [h]
    simp
  unfold ngOnInit
  rw [hck]

/-- A parent reference shared by the concrete groups below. -/
def wPar : NgParent := { id := 0, control := none }

/-- A resolved control under `wPar`. -/
def wCtl : NgCtl := { control := some (ACtrl.mk false none), parentRef := some wPar, path := none }

/-- A control under `wPar` whose underlying control is unresolved. -/
def wCtlU : NgCtl := { control := none, parentRef := some wPar, path := none }

def w1a : Accessor :=
  { id := 1, name := some "g", formControlName := none
  , value := JSVal.str "x", state := false, elChecked := false }

def w1b : Accessor :=
  { id := 2, name := some "g", formControlName := none
  , value := JSVal.str "y", state := false, elChecked := false }

/-- Witness for C1: in a concrete two-member group with resolved controls,
`select` on one member issues exactly one notification. -/
theorem c1_select_unchecks_exactly_others_witness :
    (selectTrace [(wCtl, w1a), (wCtl, w1b)] wCtl w1a).length + 1
      = ([(wCtl, w1a), (wCtl, w1b)] : List Entry).length :=
  (c1_select_unchecks_exactly_others [(wCtl, w1a), (wCtl, w1b)] wCtl w1a
    (by decide) (by decide) (by decide) (by decide) (by decide)).2.1

/-- Counterexample to C1 as stated: a two-member group (same parent
reference, same declared name, distinct instances) in which the second
member's underlying control is unresolved; `select` on the first member
notifies nobody instead of exactly the other N−1 = 1 member. -/
theorem c1_counterexample :
    parentId wCtlU.parentRef = parentId wCtl.parentRef
      ∧ w1b.name = w1a.name ∧ w1b.id ≠ w1a.id
      ∧ selectTrace [(wCtl, w1a), (wCtlU, w1b)] wCtl w1a = [] := by
  decide

/-- Witness for C2: the rendering equality at a concrete one-segment list. -/
theorem c2_parsed_name_rendering_witness :
    buildName [(some "a", false)] = renderSpec [(some "a", false)] :=
  c2_parsed_name_rendering.1 "a" false [] (by decide)

/-- Counterexample to C2 as stated: with segments `["", "b"]` and no
array-like ancestors, the code's `parsedName ? "." : ""` truthiness
drops the dot while the accumulator is still empty and renders `"b"`,
while the claimed rule (first segment bare, each subsequent segment as
`.segment`) renders `".b"`. -/
theorem c2_counterexample :
    buildName [(some "", false), (some "b", false)] = "b"
      ∧ renderSpec [(some "", false), (some "b", false)] = ".b"
      ∧ ("b" : String) ≠ ".b" := by
  decide

def w3a : Accessor :=
  { id := 1, name := some "g", formControlName := none
  , value := JSVal.str "x", state := true, elChecked := true }

def w3b : Accessor :=
  { id := 2, name := some "g", formControlName := none
  , value := JSVal.str "y", state := true, elChecked := true }

/-- Accessor sharing the declared value of `w3a` (a duplicate-value group
member). -/
def w3dup : Accessor :=
  { id := 2, name := some "g", formControlName := none
  , value := JSVal.str "x", state := false, elChecked := false }

/-- Witness for C3: a concrete two-member group with distinct declared
values and resolved controls has at most one checked member after
`select`. -/
theorem c3_at_most_one_checked_after_select_witness :
    checkedInGroup (select [(wCtl, w3a), (wCtl, w3b)] wCtl w3a) wCtl w3a ≤ 1 :=
  c3_at_most_one_checked_after_select [(wCtl, w3a), (wCtl, w3b)] wCtl w3a
    (by decide) (by decide) (by decide)

/-- Counterexample to C3 as stated, in both directions the code can violate
it: (a) a sibling declaring the same value as the selector is checked by
its own uncheck notification, leaving two checked members; (b) a sibling
with an unresolved control is skipped, so its stale checked state
survives `select`, again leaving two checked members. -/
theorem c3_counterexample :
    checkedInGroup (select [(wCtl, w3a), (wCtl, w3dup)] wCtl w3a) wCtl w3a = 2
      ∧ checkedInGroup (select [(wCtl, w3a), (wCtlU, w3b)] wCtl w3a) wCtl w3a = 2 := by
  decide

/-- The control used by the C4 witness and counterexample: it has a parent
and the one-segment path `["a"]`, so its computed path name is `"a"`. -/
def w4ctl : NgCtl :=
  { control := none, parentRef := some { id := 3, control := none }
  , path := some [some "a"] }

/-- Accessor with explicit name `"x"` and `formControlName` `"b"`. -/
def w4a : Accessor :=
  { id := 9, name := some "x", formControlName := some "b"
  , value := JSVal.null, state := false, elChecked := false }

/-- Accessor with explicit name `"x"` and `formControlName` unset. -/
def x4a : Accessor :=
  { id := 5, name := some "x", formControlName := none
  , value := JSVal.null, state := false, elChecked := false }

/-- Witness for C4: with name `"x"`, `formControlName` `"b"` and computed
path name `"a"`, attach aborts and the registry stays empty. -/
theorem c4_name_conflict_aborts_attach_witness :
    ngOnInitReg [] w4ctl w4a = [] :=
  (c4_name_conflict_aborts_attach [] w4ctl w4a (by decide) (by decide) (by decide)).2

/-- Counterexample to C4 as stated: with `formControlName` unset, the
explicit name `"x"` and the computed path name `"a"` both exist and
differ, yet attach does not throw and the accessor is registered. -/
theorem c4_counterexample :
    truthyS x4a.name = true
      ∧ (parsedNameM w4ctl x4a.formControlName).1 = some "a"
      ∧ x4a.name ≠ some "a"
      ∧ ngOnInit [] w4ctl x4a = Except.ok (regAdd [] (w4ctl, x4a), w4ctl, x4a) := by
  decide

/-- Witness for C6: in a concrete two-member group, the sibling uncheck
notification sits at a strictly positive trace position and carries the
selector's value. -/
theorem c6_change_callback_before_unchecks_witness :
    0 < 1 ∧ JSVal.str "x" = w1a.value :=
  (c6_change_callback_before_unchecks [(wCtl, w1a), (wCtl, w1b)] wCtl w1a).2
    1 2 (JSVal.str "x") (by decide)

/-- Witness for C7: a concrete valid add/add/remove sequence after which a
second remove of the same accessor is a no-op. -/
theorem c7_remove_clears_then_noop_witness :
    regRemove (regRemove (runOps [RegOp.add wCtl w1a, RegOp.add wCtl w1b,
        RegOp.remove 1] []) 1) 1
      = regRemove (runOps [RegOp.add wCtl w1a, RegOp.add wCtl w1b,
          RegOp.remove 1] []) 1 :=
  (c7_remove_clears_then_noop [RegOp.add wCtl w1a, RegOp.add wCtl w1b,
    RegOp.remove 1] 1 (by decide)).2.1

/-- Counterexample to C7 as stated: a sequence that adds the same accessor
instance twice; after `remove` the registry still holds a pairing whose
accessor is that instance. -/
theorem c7_counterexample :
    runOps [RegOp.add wCtl w1a, RegOp.add wCtl w1a, RegOp.remove w1a.id] []
      = [(wCtl, w1a)] := by
  decide

/-- Witness for C8: a control with parent and path `[null]` gets its final
segment filled with `formControlName`. -/
theorem c8_last_segment_fill_witness :
    ((parsedNameM (NgCtl.mk none (some wPar) (some [none])) (some "street")).2).path
      = some (([none] : List (Option String)).dropLast ++ [some "street"]) :=
  ((c8_last_segment_fill none wPar [none] (some "street") (by decide)).1 (by decide)).1

/-- The control used by the C8 counterexample: its final path segment is
already set to `"foo"`. -/
def x8ctl : NgCtl :=
  { control := none, parentRef := some { id := 3, control := none }
  , path := some [some "foo"] }

/-- Counterexample to C8 as stated: with final segment `"foo"` and
`formControlName` `"bar"`, name resolution leaves the final segment
`"foo"`, so it does not end up equal to `formControlName`. -/
theorem c8_counterexample :
    ((parsedNameM x8ctl (some "bar")).2).path = some [some "foo"]
      ∧ (some "foo" : Option String) ≠ (some "bar" : Option String) := by
  decide

/-- Accessor with an explicit name but no `formControlName`. -/
def w9a : Accessor :=
  { id := 4, name := some "whatever", formControlName := none
  , value := JSVal.num 3, state := false, elChecked := false }

/-- Witness for C9: with `formControlName` unset, attach registers the
accessor unchanged. -/
theorem c9_unset_fcn_attach_always_registers_witness :
    ngOnInit [] wCtl w9a = Except.ok (regAdd [] (wCtl, w9a), wCtl, w9a) :=
  c9_unset_fcn_attach_always_registers [] wCtl w9a (by decide)

/-- Witness for C10: a concrete pairing with unresolved control, same parent
reference and same name as the selector, is not among the notified
pairings. -/
theorem c10_unresolved_control_never_notified_witness :
    (wCtlU, w1b) ∉ selectFiltered [(wCtl, w1a), (wCtlU, w1b)] wCtl w1a :=
  (c10_unresolved_control_never_notified [(wCtl, w1a), (wCtlU, w1b)] wCtl w1a
    (wCtlU, w1b) (by decide)).1

end Radio
